import Mathlib

/-!
Verification development for the FinSight simulated brokerage ledger
(`app/services/trading_service.py`) and its autonomous decision engine
(`app/services/agent_brain.py`).

The Python code persists a JSON dict; we embed that state shallowly:
money amounts are rationals (the spec's equity identity tolerates float
rounding, so we work in exact arithmetic), quantities are integers, and
the symbol-to-position dicts are association lists with first-occurrence
lookup and replacement, which matches Python dict semantics on the
duplicate-free lists all reachable states have.
-/

abbrev Ticker := String

/-- A house-book position row, as stored under the symbol key of the
persisted positions mapping. -/
structure Position where
  qty : ℤ
  avg_entry_price : ℚ
  current_price : ℚ
  unrealized_pl : ℚ
  unrealized_plpc : ℚ
deriving Repr, DecidableEq

/-- An agent-book position row, as stored in the agent sub-record's positions
mapping; it additionally carries the stop-loss and risk score that produced it
and has no `unrealized_plpc`. -/
structure AgentPosition where
  qty : ℤ
  avg_entry_price : ℚ
  current_price : ℚ
  unrealized_pl : ℚ
  stop_loss : ℚ
  risk_score : ℚ
deriving Repr, DecidableEq

/-- The `agent_portfolio` sub-record of the persisted state. -/
structure AgentPortfolio where
  allocated : ℚ
  cash : ℚ
  equity : ℚ
  positions : List (Ticker × AgentPosition)
deriving Repr, DecidableEq

/-- The whole persisted simulated-portfolio state (`simulated_portfolio.json`). -/
structure SimState where
  equity : ℚ
  buying_power : ℚ
  cash : ℚ
  positions : List (Ticker × Position)
  agent_portfolio : AgentPortfolio
deriving Repr, DecidableEq

inductive Side where
  | buy
  | sell
deriving Repr, DecidableEq

inductive Source where
  | manual
  | agent
deriving Repr, DecidableEq

/-- The success payload returned by `_execute_sim_trade`. -/
structure TradeResult where
  symbol : Ticker
  side : Side
  qty : ℤ
  price : ℚ
  source : Source
deriving Repr, DecidableEq

/-- Dict lookup on an association list: first entry whose key matches. -/
def alookup {α : Type} (ps : List (Ticker × α)) (s : Ticker) : Option α :=
  match ps with
  | [] => none
  | (k, v) :: rest => if k = s then some v else alookup rest s

/-- Dict assignment: replace the first entry with the given key, or append a
new entry when the key is absent. -/
def aset {α : Type} (ps : List (Ticker × α)) (s : Ticker) (v : α) :
    List (Ticker × α) :=
  match ps with
  | [] => [(s, v)]
  | (k, w) :: rest => if k = s then (s, v) :: rest else (k, w) :: aset rest s v

/-- Dict deletion of a key. -/
def aerase {α : Type} (ps : List (Ticker × α)) (s : Ticker) :
    List (Ticker × α) :=
  ps.filter (fun kv => kv.1 ≠ s)

/-- The position-value sum the code computes for the house book: the sum over
all rows of quantity times current price. -/
def posValue (ps : List (Ticker × Position)) : ℚ :=
  (ps.map (fun kv => (kv.2.qty : ℚ) * kv.2.current_price)).sum

/-- The same position-value sum for the agent book. -/
def agentPosValue (ps : List (Ticker × AgentPosition)) : ℚ :=
  (ps.map (fun kv => (kv.2.qty : ℚ) * kv.2.current_price)).sum

/-- The initial persisted state written by `_ensure_sim_portfolio`. -/
def initialState : SimState :=
  { equity := 100000
    buying_power := 100000
    cash := 100000
    positions := []
    agent_portfolio := { allocated := 0, cash := 0, equity := 0, positions := [] } }

/-- Lines 335-344 of `_execute_sim_trade`: recompute equity and buying power
for the house book and equity for the agent book from cash and positions. -/
def finalizeEquity (st : SimState) : SimState :=
  { st with
    equity := st.cash + posValue st.positions
    buying_power := st.cash
    agent_portfolio :=
      { st.agent_portfolio with
        equity := st.agent_portfolio.cash + agentPosValue st.agent_portfolio.positions } }

/-- Agent sub-account update on a buy (lines 303-315): debit agent cash and
fold the trade into the agent position at a cost-weighted average, storing the
trade's stop-loss and risk score. -/
def agentBuy (st : SimState) (symbol : Ticker) (qty : ℤ)
    (cost price stop_loss risk_score : ℚ) : SimState :=
  let ap := st.agent_portfolio
  let p := (alookup ap.positions symbol).getD
    { qty := 0, avg_entry_price := 0, current_price := 0, unrealized_pl := 0,
      stop_loss := 0, risk_score := 0 }
  let n_q := p.qty + qty
  let n_av := ((p.qty : ℚ) * p.avg_entry_price + cost) / (n_q : ℚ)
  { st with
    agent_portfolio :=
      { ap with
        cash := ap.cash - cost
        positions := aset ap.positions symbol
          { qty := n_q
            avg_entry_price := n_av
            current_price := price
            unrealized_pl := (price - n_av) * (n_q : ℚ)
            stop_loss := stop_loss
            risk_score := risk_score } } }

/-- Agent sub-account update on a sell (lines 316-333): only applied when the
agent book independently holds at least the requested quantity; otherwise the
agent book is left untouched while the house book still reflects the trade. -/
def agentSell (st : SimState) (symbol : Ticker) (qty : ℤ) (cost price : ℚ) :
    SimState :=
  let ap := st.agent_portfolio
  match alookup ap.positions symbol with
  | none => st
  | some p =>
    if p.qty < qty then st
    else
      let newq := p.qty - qty
      let positions :=
        if newq = 0 then aerase ap.positions symbol
        else aset ap.positions symbol
          { p with
            qty := newq
            current_price := price
            unrealized_pl := (price - p.avg_entry_price) * (newq : ℚ) }
      { st with
        agent_portfolio :=
          { ap with
            cash := ap.cash + cost
            positions := positions } }

/-- House-book mutation on an accepted buy (lines 274-284): debit cash and
fold the trade into the position at a cost-weighted average. -/
def houseBuy (st : SimState) (symbol : Ticker) (qty : ℤ) (cost price : ℚ) :
    SimState :=
  let pos := (alookup st.positions symbol).getD
    { qty := 0, avg_entry_price := 0, current_price := 0,
      unrealized_pl := 0, unrealized_plpc := 0 }
  let new_qty := pos.qty + qty
  let new_avg := ((pos.qty : ℚ) * pos.avg_entry_price + cost) / (new_qty : ℚ)
  { st with
    cash := st.cash - cost
    positions := aset st.positions symbol
      { qty := new_qty
        avg_entry_price := new_avg
        current_price := price
        unrealized_pl := (price - new_avg) * (new_qty : ℚ)
        unrealized_plpc := if new_avg = 0 then 0 else price / new_avg - 1 } }

/-- House-book mutation on an accepted sell (lines 290-297): credit cash,
decrement the held quantity, delete the row when it reaches zero and otherwise
recompute its current price and unrealized P&L at the execution price.
`pos` is the row the caller looked up. -/
def houseSell (st : SimState) (symbol : Ticker) (pos : Position) (qty : ℤ)
    (cost price : ℚ) : SimState :=
  let newq := pos.qty - qty
  let positions :=
    if newq = 0 then aerase st.positions symbol
    else aset st.positions symbol
      { pos with
        qty := newq
        current_price := price
        unrealized_pl := (price - pos.avg_entry_price) * (newq : ℚ)
        unrealized_plpc := price / pos.avg_entry_price - 1 }
  { st with
    cash := st.cash + cost
    positions := positions }

/-- Shallow embedding of `_execute_sim_trade` (trading_service.py lines
251-361).  `price` is the oracle's answer for the symbol, with 0 standing for
"no price obtainable" exactly as in the code.  The source's two tests of
`source == "agent"` (the up-front agent-cash guard, which applies only to
buys, and the post-trade agent sub-account update) appear here as the match
on `source` in each side's arm, preserving the source's check order: agent
cash is checked before house cash on an agent buy.  The returned state is the
dict contents at the moment the function returns, which is what the locked
context manager writes back to disk; rejections return the error payload and
leave the dict as it was.  Division of rationals is total with a zero
denominator giving 0; the only division the code performs with a zero
denominator is unreachable for the positive quantities and prices the
theorems quantify over. -/
def executeSimTrade (st : SimState) (symbol : Ticker) (qty : ℤ) (side : Side)
    (source : Source) (stop_loss risk_score : ℚ) (price : ℚ) :
    SimState × Except String TradeResult :=
  if price = 0 then (st, .error "Could not fetch price")
  else
    let cost := price * (qty : ℚ)
    match side with
    | .buy =>
      match source with
      | .agent =>
        if st.agent_portfolio.cash < cost then
          (st, .error "Agent insufficient funds")
        else if st.cash < cost then
          (st, .error "Insufficient buying power (Simulated)")
        else
          (finalizeEquity
            (agentBuy (houseBuy st symbol qty cost price) symbol qty cost price
              stop_loss risk_score),
            .ok ⟨symbol, .buy, qty, price, .agent⟩)
      | .manual =>
        if st.cash < cost then
          (st, .error "Insufficient buying power (Simulated)")
        else
          (finalizeEquity (houseBuy st symbol qty cost price),
            .ok ⟨symbol, .buy, qty, price, .manual⟩)
    | .sell =>
      match alookup st.positions symbol with
      | none => (st, .error "Not enough shares to sell (Simulated)")
      | some pos =>
        if pos.qty < qty then (st, .error "Not enough shares to sell (Simulated)")
        else
          match source with
          | .agent =>
            (finalizeEquity
              (agentSell (houseSell st symbol pos qty cost price) symbol qty cost
                price),
              .ok ⟨symbol, .sell, qty, price, .agent⟩)
          | .manual =>
            (finalizeEquity (houseSell st symbol pos qty cost price),
              .ok ⟨symbol, .sell, qty, price, .manual⟩)

/-- `set_agent_allocation` (lines 70-83): reset the agent book's allocation and
cash to `amount` and recompute agent equity from the freshly set cash and the
current agent position values; the house book is untouched. -/
def setAgentAllocation (amount : ℚ) (st : SimState) : SimState :=
  let ap := st.agent_portfolio
  { st with
    agent_portfolio :=
      { ap with
        allocated := amount
        cash := amount
        equity := amount + agentPosValue ap.positions } }

/-- One refresh pass over the house positions (lines 372-383).  The oracle
returns the fetched current price, with 0 standing for a fetch failure or a
falsy price, both of which the code skips. -/
def refreshHousePositions (oracle : Ticker → ℚ) (ps : List (Ticker × Position)) :
    List (Ticker × Position) :=
  ps.map (fun kv =>
    let price := oracle kv.1
    if price = 0 then kv
    else (kv.1,
      { kv.2 with
        current_price := price
        unrealized_pl := (price - kv.2.avg_entry_price) * (kv.2.qty : ℚ)
        unrealized_plpc :=
          if kv.2.avg_entry_price = 0 then 0
          else price / kv.2.avg_entry_price - 1 }))

/-- One refresh pass over the agent positions (lines 385-398); the agent rows
get current price and unrealized P&L updated but carry no `unrealized_plpc`. -/
def refreshAgentPositions (oracle : Ticker → ℚ)
    (ps : List (Ticker × AgentPosition)) : List (Ticker × AgentPosition) :=
  ps.map (fun kv =>
    let price := oracle kv.1
    if price = 0 then kv
    else (kv.1,
      { kv.2 with
        current_price := price
        unrealized_pl := (price - kv.2.avg_entry_price) * (kv.2.qty : ℚ) }))

/-- Shallow embedding of `_refresh_sim_prices` (lines 363-415): update every
position for which the oracle yields a price, and if anything was updated
recompute both books' equity from cash and the refreshed position values. -/
def refreshSimPrices (oracle : Ticker → ℚ) (st : SimState) : SimState :=
  let updated :=
    st.positions.any (fun kv => oracle kv.1 ≠ 0) ||
      st.agent_portfolio.positions.any (fun kv => oracle kv.1 ≠ 0)
  if updated then
    let ps := refreshHousePositions oracle st.positions
    let aps := refreshAgentPositions oracle st.agent_portfolio.positions
    { st with
      positions := ps
      equity := st.cash + posValue ps
      agent_portfolio :=
        { st.agent_portfolio with
          positions := aps
          equity := st.agent_portfolio.cash + agentPosValue aps } }
  else st

/-- A trade request as `place_order` receives it in simulation mode, together
with the price the oracle will answer for its symbol. -/
structure TradeReq where
  symbol : Ticker
  qty : ℤ
  side : Side
  source : Source
  stop_loss : ℚ
  risk_score : ℚ
  price : ℚ
deriving Repr, DecidableEq

/-- The state after running a sequence of trade requests from a given state;
rejected trades leave the state unchanged, exactly as in the code. -/
def runTrades (st : SimState) (ts : List TradeReq) : SimState :=
  ts.foldl
    (fun s t =>
      (executeSimTrade s t.symbol t.qty t.side t.source t.stop_loss t.risk_score
        t.price).1)
    st

/-- The spec's equity identity for both books: stored equity equals cash plus
the sum over held positions of quantity times current price. -/
def eqInv (st : SimState) : Prop :=
  st.equity = st.cash + posValue st.positions ∧
    st.agent_portfolio.equity =
      st.agent_portfolio.cash + agentPosValue st.agent_portfolio.positions

inductive Signal where
  | BUY
  | SELL
  | HOLD
deriving Repr, DecidableEq

/-- The side string the engine submits for a non-HOLD signal
(`side = signal.lower()` in `run_once`). -/
def sideOf (s : Signal) : Side :=
  match s with
  | .BUY => .buy
  | _ => .sell

/-- What the stop-loss check and the sell sizing read from the agent book's
position row for the ticker: the held quantity and the stored stop-loss. -/
structure AgentPosMeta where
  qty : ℤ
  stop_loss : ℚ
deriving Repr, DecidableEq

/-- One order submission to the Ledger from a decision cycle; at most one per
ticker per cycle.  `panicSell` is the stop-loss branch's
`place_order(ticker, qty, "sell", source="agent")` (submitted with the default
zero stop-loss and risk score), `trade` is the sized submission
`place_order(ticker, qty, side, source="agent", stop_loss=..., risk_score=...)`,
and `noAction` means the cycle ends with no order. -/
inductive Decision where
  | noAction
  | panicSell (qty : ℤ)
  | trade (side : Side) (qty : ℤ) (stop_loss risk_score : ℚ)
deriving Repr, DecidableEq

/-- The inputs `run_once` draws on after the market fetch and the analysis:
the fetched current price, the analysis payload (signal, risk score, suggested
stop-loss), the configuration flag as read each cycle, the agent book's cash
and its position row for this ticker, and whether either of the two
account-info reads raises (each is wrapped in its own try block in the
source). -/
structure BrainInput where
  price : ℚ
  signal : Signal
  risk_score : ℚ
  stop_loss : ℚ
  autonomous_enabled : Option Bool
  agent_cash : ℚ
  agent_pos : Option AgentPosMeta
  slCheckReadFails : Bool
  qtyCalcFails : Bool
deriving Repr, DecidableEq

/-- Line 71 of `run_once`: the active stop-loss is the maximum of the fresh
suggestion and the stored stop-loss when both are positive, and otherwise the
fresh one when it is nonzero (a Python `or`-chain) and the stored one when
the fresh suggestion is zero. -/
def activeStopLoss (fresh stored : ℚ) : ℚ :=
  if 0 < fresh ∧ 0 < stored then max fresh stored
  else if fresh ≠ 0 then fresh else stored

/-- Lines 56-79 of `run_once`: the proactive stop-loss check.  It fires (a
full-quantity agent-sourced sell, ending the cycle) when the account read
succeeds, the agent book holds a positive quantity of the ticker, and the
active stop-loss is positive with the current price at or below it.  When the
read raises, the exception is caught and the check is skipped. -/
def panicCheck (inp : BrainInput) : Option Decision :=
  if inp.slCheckReadFails then none
  else
    match inp.agent_pos with
    | none => none
    | some pos =>
      if 0 < pos.qty then
        let asl := activeStopLoss inp.stop_loss pos.stop_loss
        if 0 < asl ∧ inp.price ≤ asl then some (.panicSell pos.qty) else none
      else none

/-- Python `int()` on a rational: truncation toward zero. -/
def pyInt (x : ℚ) : ℤ :=
  if 0 ≤ x then ⌊x⌋ else ⌈x⌉

/-- Lines 87-136 of `run_once`: sizing for a non-HOLD signal that passed the
configuration gate.  An exception while computing the quantity (for example a
failing account read) is caught, the quantity defaults to 1 and the trade is
still submitted; otherwise a BUY is sized from agent cash at 20 percent scaled
by the risk multiplier and a SELL liquidates the full held quantity, with the
documented abort conditions. -/
def sizeAndTrade (inp : BrainInput) : Decision :=
  if inp.qtyCalcFails then
    .trade (sideOf inp.signal) 1 inp.stop_loss inp.risk_score
  else if 0 < inp.price then
    match inp.signal with
    | .BUY =>
      let risk_multiplier := max (1/10 : ℚ) ((11 - inp.risk_score) / 10)
      let alloc := inp.agent_cash * (20/100) * risk_multiplier
      let q : ℤ := pyInt (alloc / inp.price)
      let q := if q < 1 ∧ inp.price ≤ inp.agent_cash then 1 else q
      if q < 1 then .noAction
      else .trade .buy q inp.stop_loss inp.risk_score
    | _ =>
      let q := ((inp.agent_pos).map (fun p => p.qty)).getD 0
      if q ≤ 0 then .noAction
      else .trade .sell q inp.stop_loss inp.risk_score
  else .noAction

/-- The order-relevant behaviour of one `run_once` cycle after fetch and
analysis (lines 56-143): the stop-loss check can pre-empt everything; a HOLD
signal or a configuration gate reading `autonomous_enabled` as false ends the
cycle with no trade; otherwise the sized trade is submitted.  The gate is
`config.get("autonomous_enabled", True)`: an absent flag defaults to true. -/
def runOnceDecision (inp : BrainInput) : Decision :=
  match panicCheck inp with
  | some d => d
  | none =>
    match inp.signal with
    | .HOLD => .noAction
    | _ =>
      if inp.autonomous_enabled.getD true = false then .noAction
      else sizeAndTrade inp

/-- The throttle gate `_maybe_refresh_prices` (lines 109-120): given the
recorded time of the last refresh (none before the first) and the current
time in seconds, it starts a detached background refresh and re-stamps the
gate only when no refresh has run yet or at least `PRICE_REFRESH_INTERVAL`
(60) seconds have elapsed; otherwise it is a no-op.  The boolean records
whether the refresh body was started. -/
def maybeRefreshPrices (last : Option ℚ) (now : ℚ) : Option ℚ × Bool :=
  match last with
  | none => (some now, true)
  | some t => if 60 ≤ now - t then (some now, true) else (some t, false)

/-- The refresh behaviour of `get_positions` in simulation mode (line 173):
it invokes `_refresh_sim_prices` directly on every call — synchronously and
without consulting or re-stamping the throttle gate.  The boolean records
whether the refresh body runs. -/
def getPositionsRefreshTrigger (last : Option ℚ) (_now : ℚ) : Option ℚ × Bool :=
  (last, true)

example : eqInv initialState := by
  constructor <;> norm_num [initialState, posValue, agentPosValue]

example :
    (executeSimTrade initialState "AAPL" 10 .buy .manual 0 0 150).1.cash = 98500 := by
  norm_num [executeSimTrade, initialState, finalizeEquity, houseBuy, alookup, aset,
    posValue, agentPosValue]

example :
    (executeSimTrade (executeSimTrade initialState "AAPL" 10 .buy .manual 0 0 150).1
      "AAPL" 10 .sell .manual 0 0 160).1.cash = 100100 := by
  norm_num [executeSimTrade, initialState, finalizeEquity, houseBuy, houseSell,
    alookup, aset, aerase, posValue, agentPosValue]

example :
    alookup (executeSimTrade (executeSimTrade initialState "AAPL" 10 .buy .manual 0 0 150).1
      "AAPL" 10 .sell .manual 0 0 160).1.positions "AAPL" = none := by
  norm_num [executeSimTrade, initialState, finalizeEquity, houseBuy, houseSell,
    alookup, aset, aerase, posValue, agentPosValue]

example : activeStopLoss 45 50 = 50 := by norm_num [activeStopLoss]

example : activeStopLoss 45 0 = 45 := by norm_num [activeStopLoss]

example :
    runOnceDecision
      { price := 100, signal := .BUY, risk_score := 10, stop_loss := 0,
        autonomous_enabled := none, agent_cash := 20000, agent_pos := none,
        slCheckReadFails := false, qtyCalcFails := false } = .trade .buy 4 0 10 := by
  norm_num [runOnceDecision, panicCheck, sizeAndTrade, sideOf, pyInt]

/-! ## Basic lemmas about the embedding -/

theorem alookup_aset_self {α : Type} (ps : List (Ticker × α)) (s : Ticker) (v : α) :
    alookup (aset ps s v) s = some v := by
  induction ps with
  | nil => simp [aset, alookup]
  | cons kv rest ih =>
    obtain ⟨k, w⟩ := kv
    by_cases hk : k = s
    · simp [aset, alookup, hk]
    · simp [aset, alookup, hk, ih]

theorem alookup_aerase_self {α : Type} (ps : List (Ticker × α)) (s : Ticker) :
    alookup (aerase ps s) s = none := by
  induction ps with
  | nil => simp [aerase, alookup]
  | cons kv rest ih =>
    obtain ⟨k, w⟩ := kv
    by_cases hk : k = s
    · simpa [aerase, alookup, hk] using ih
    · simpa [aerase, alookup, hk] using ih

theorem finalizeEquity_cash (st : SimState) : (finalizeEquity st).cash = st.cash := rfl

theorem finalizeEquity_positions (st : SimState) :
    (finalizeEquity st).positions = st.positions := rfl

theorem finalizeEquity_agent_cash (st : SimState) :
    (finalizeEquity st).agent_portfolio.cash = st.agent_portfolio.cash := rfl

theorem finalizeEquity_agent_positions (st : SimState) :
    (finalizeEquity st).agent_portfolio.positions = st.agent_portfolio.positions := rfl

theorem agentBuy_cash (st : SimState) (s : Ticker) (q : ℤ) (c p sl rs : ℚ) :
    (agentBuy st s q c p sl rs).cash = st.cash := rfl

theorem agentBuy_positions (st : SimState) (s : Ticker) (q : ℤ) (c p sl rs : ℚ) :
    (agentBuy st s q c p sl rs).positions = st.positions := rfl

theorem agentBuy_agent_cash (st : SimState) (s : Ticker) (q : ℤ) (c p sl rs : ℚ) :
    (agentBuy st s q c p sl rs).agent_portfolio.cash = st.agent_portfolio.cash - c := rfl

theorem agentSell_cash (st : SimState) (s : Ticker) (q : ℤ) (c p : ℚ) :
    (agentSell st s q c p).cash = st.cash := by
  unfold agentSell
  dsimp only
  split
  · rfl
  · split <;> rfl

theorem agentSell_positions (st : SimState) (s : Ticker) (q : ℤ) (c p : ℚ) :
    (agentSell st s q c p).positions = st.positions := by
  unfold agentSell
  dsimp only
  split
  · rfl
  · split <;> rfl

theorem houseBuy_cash (st : SimState) (s : Ticker) (q : ℤ) (c p : ℚ) :
    (houseBuy st s q c p).cash = st.cash - c := rfl

theorem houseBuy_agent (st : SimState) (s : Ticker) (q : ℤ) (c p : ℚ) :
    (houseBuy st s q c p).agent_portfolio = st.agent_portfolio := rfl

theorem houseSell_cash (st : SimState) (s : Ticker) (pos : Position) (q : ℤ) (c p : ℚ) :
    (houseSell st s pos q c p).cash = st.cash + c := rfl

theorem houseSell_agent (st : SimState) (s : Ticker) (pos : Position) (q : ℤ) (c p : ℚ) :
    (houseSell st s pos q c p).agent_portfolio = st.agent_portfolio := rfl

theorem eqInv_finalizeEquity (st : SimState) : eqInv (finalizeEquity st) := ⟨rfl, rfl⟩

/-- Every call to the simulated trade either returns an explicit error payload
with the state it was given, or a success payload. -/
theorem executeSimTrade_shape (st : SimState) (symbol : Ticker) (qty : ℤ)
    (side : Side) (source : Source) (sl rs price : ℚ) :
    (∃ e, executeSimTrade st symbol qty side source sl rs price = (st, .error e)) ∨
    (∃ st2 r, executeSimTrade st symbol qty side source sl rs price = (st2, .ok r)) := by
  unfold executeSimTrade
  cases side <;> cases source <;> dsimp only <;> repeat' split
  all_goals first
    | exact .inl ⟨_, rfl⟩
    | exact .inr ⟨_, _, rfl⟩

/-- C1: a trade rejected by the simulated Ledger — no price obtainable,
agent-sourced buy with agent cash below cost, buy with house cash below cost,
or sell with held quantity below the requested quantity — returns an explicit
error result rather than raising, and leaves the persisted state (house and
agent books) exactly as it was. -/
theorem c1_rejection_without_mutation (st : SimState) (symbol : Ticker)
    (qty : ℤ) (side : Side) (source : Source) (stop_loss risk_score price : ℚ) :
    (∀ e,
      (executeSimTrade st symbol qty side source stop_loss risk_score price).2 =
        .error e →
      (executeSimTrade st symbol qty side source stop_loss risk_score price).1 = st) ∧
    (price = 0 →
      ∃ e, executeSimTrade st symbol qty side source stop_loss risk_score price =
        (st, .error e)) ∧
    (source = .agent → side = .buy →
      st.agent_portfolio.cash < price * (qty : ℚ) →
      ∃ e, executeSimTrade st symbol qty side source stop_loss risk_score price =
        (st, .error e)) ∧
    (side = .buy → st.cash < price * (qty : ℚ) →
      ∃ e, executeSimTrade st symbol qty side source stop_loss risk_score price =
        (st, .error e)) ∧
    (side = .sell →
      ((alookup st.positions symbol).map (fun p => p.qty)).getD 0 < qty →
      ∃ e, executeSimTrade st symbol qty side source stop_loss risk_score price =
        (st, .error e)) := by
  refine ⟨?_, ?_, ?_, ?_, ?_⟩
  · intro e h
    rcases executeSimTrade_shape st symbol qty side source stop_loss risk_score price
      with ⟨e2, heq⟩ | ⟨st2, r, heq⟩
    · rw [heq]
    · rw [heq] at h
      simp at h
  · intro hp
    exact ⟨"Could not fetch price", by simp [executeSimTrade, hp]⟩
  · intro hsrc hside hlt
    subst hsrc; subst hside
    by_cases hp : price = 0
    · exact ⟨"Could not fetch price", by simp [executeSimTrade, hp]⟩
    · exact ⟨"Agent insufficient funds", by simp [executeSimTrade, hp, hlt]⟩
  · intro hside hlt
    subst hside
    by_cases hp : price = 0
    · exact ⟨"Could not fetch price", by simp [executeSimTrade, hp]⟩
    · cases source
      · exact ⟨"Insufficient buying power (Simulated)",
          by simp [executeSimTrade, hp, hlt]⟩
      · by_cases hag : st.agent_portfolio.cash < price * (qty : ℚ)
        · exact ⟨"Agent insufficient funds", by simp [executeSimTrade, hp, hag]⟩
        · exact ⟨"Insufficient buying power (Simulated)",
            by simp [executeSimTrade, hp, hag, hlt]⟩
  · intro hside hlt
    subst hside
    by_cases hp : price = 0
    · exact ⟨"Could not fetch price", by simp [executeSimTrade, hp]⟩
    · rcases halk : alookup st.positions symbol with _ | pos
      · exact ⟨"Not enough shares to sell (Simulated)",
          by simp [executeSimTrade, hp, halk]⟩
      · rw [halk] at hlt
        simp only [Option.map_some', Option.getD_some] at hlt
        exact ⟨"Not enough shares to sell (Simulated)",
          by simp [executeSimTrade, hp, halk, hlt]⟩

/-- C1 witness: a trade with no obtainable price is rejected with an explicit
error and an unchanged state. -/
theorem c1_witness :
    ∃ e, executeSimTrade initialState "AAPL" 1 .buy .manual 0 0 0 =
      (initialState, .error e) :=
  (c1_rejection_without_mutation initialState "AAPL" 1 .buy .manual 0 0 0).2.1 rfl

/-- An accepted manually-sourced buy passed the house-cash check and produced
exactly the house-buy update followed by the equity recomputation. -/
theorem buy_manual_ok_extract (st : SimState) (symbol : Ticker) (qty : ℤ)
    (sl rs price : ℚ) (st2 : SimState) (r : TradeResult)
    (h : executeSimTrade st symbol qty .buy .manual sl rs price = (st2, .ok r)) :
    price ≠ 0 ∧ price * (qty : ℚ) ≤ st.cash ∧
      st2 = finalizeEquity (houseBuy st symbol qty (price * (qty : ℚ)) price) := by
  by_cases hp : price = 0
  · simp [executeSimTrade, hp] at h
  · unfold executeSimTrade at h
    rw [if_neg hp] at h
    dsimp only at h
    by_cases hc : st.cash < price * (qty : ℚ)
    · rw [if_pos hc] at h
      simp at h
    · rw [if_neg hc] at h
      injection h with h1 h2
      exact ⟨hp, not_lt.mp hc, h1.symm⟩

/-- An accepted agent-sourced buy passed the agent-cash check and then the
house-cash check, and produced the house-buy update, the agent-buy update and
the equity recomputation. -/
theorem buy_agent_ok_extract (st : SimState) (symbol : Ticker) (qty : ℤ)
    (sl rs price : ℚ) (st2 : SimState) (r : TradeResult)
    (h : executeSimTrade st symbol qty .buy .agent sl rs price = (st2, .ok r)) :
    price ≠ 0 ∧ price * (qty : ℚ) ≤ st.agent_portfolio.cash ∧
      price * (qty : ℚ) ≤ st.cash ∧
      st2 = finalizeEquity
        (agentBuy (houseBuy st symbol qty (price * (qty : ℚ)) price) symbol qty
          (price * (qty : ℚ)) price sl rs) := by
  by_cases hp : price = 0
  · simp [executeSimTrade, hp] at h
  · unfold executeSimTrade at h
    rw [if_neg hp] at h
    dsimp only at h
    by_cases ha : st.agent_portfolio.cash < price * (qty : ℚ)
    · rw [if_pos ha] at h
      simp at h
    · rw [if_neg ha] at h
      by_cases hc : st.cash < price * (qty : ℚ)
      · rw [if_pos hc] at h
        simp at h
      · rw [if_neg hc] at h
        injection h with h1 h2
        exact ⟨hp, not_lt.mp ha, not_lt.mp hc, h1.symm⟩

/-- An accepted sell (of either source) found a house row holding at least the
requested quantity, and its post-state carries the house-sell update's cash
and positions (the agent sub-update and the equity recomputation do not touch
them). -/
theorem sell_ok_extract (st : SimState) (symbol : Ticker) (qty : ℤ)
    (source : Source) (sl rs price : ℚ) (st2 : SimState) (r : TradeResult)
    (h : executeSimTrade st symbol qty .sell source sl rs price = (st2, .ok r)) :
    price ≠ 0 ∧
      ∃ pos, alookup st.positions symbol = some pos ∧ ¬pos.qty < qty ∧
        st2.cash = st.cash + price * (qty : ℚ) ∧
        st2.positions =
          (houseSell st symbol pos qty (price * (qty : ℚ)) price).positions := by
  by_cases hp : price = 0
  · simp [executeSimTrade, hp] at h
  · unfold executeSimTrade at h
    rw [if_neg hp] at h
    dsimp only at h
    rcases halk : alookup st.positions symbol with _ | pos
    · rw [halk] at h
      simp at h
    · rw [halk] at h
      dsimp only at h
      by_cases hq : pos.qty < qty
      · rw [if_pos hq] at h
        simp at h
      · rw [if_neg hq] at h
        cases source <;> dsimp only at h <;> injection h with h1 h2
        · refine ⟨hp, pos, rfl, hq, ?_, ?_⟩ <;> rw [← h1] <;> rfl
        · refine ⟨hp, pos, rfl, hq, ?_, ?_⟩ <;> rw [← h1]
          · rw [finalizeEquity_cash, agentSell_cash, houseSell_cash]
          · rw [finalizeEquity_positions, agentSell_positions]

/-- One trade with a positive price and quantity keeps house cash nonnegative:
a rejection leaves cash unchanged, an accepted buy was affordability-checked,
and an accepted sell credits a positive amount. -/
theorem executeSimTrade_cash_nonneg (st : SimState) (symbol : Ticker) (qty : ℤ)
    (side : Side) (source : Source) (sl rs price : ℚ) (hp : 0 < price)
    (hq : 0 < qty) (h0 : 0 ≤ st.cash) :
    0 ≤ (executeSimTrade st symbol qty side source sl rs price).1.cash := by
  have hcost : 0 < price * (qty : ℚ) := by
    have : (0 : ℚ) < (qty : ℚ) := by exact_mod_cast hq
    exact mul_pos hp this
  rcases executeSimTrade_shape st symbol qty side source sl rs price
    with ⟨e, heq⟩ | ⟨st2, r, heq⟩
  · rw [heq]
    exact h0
  · rw [heq]
    cases side
    · cases source
      · obtain ⟨-, hle, hst2⟩ :=
          buy_manual_ok_extract st symbol qty sl rs price st2 r heq
        rw [hst2]
        dsimp only
        rw [finalizeEquity_cash, houseBuy_cash]
        linarith
      · obtain ⟨-, -, hle, hst2⟩ :=
          buy_agent_ok_extract st symbol qty sl rs price st2 r heq
        rw [hst2]
        dsimp only
        rw [finalizeEquity_cash, agentBuy_cash, houseBuy_cash]
        linarith
    · obtain ⟨-, pos, -, -, hcash, -⟩ :=
        sell_ok_extract st symbol qty source sl rs price st2 r heq
      dsimp only
      rw [hcash]
      linarith

/-- C2: from the initial state, any sequence of trade requests with positive
prices and quantities keeps house cash nonnegative (rejected requests change
nothing, so this covers every sequence of accepted trades); an accepted
agent-sourced buy is accepted only with agent cash at least the cost, debits
exactly the cost and leaves agent cash nonnegative; and an accepted buy of
either source is accepted only with house cash at least the cost. -/
theorem c2_cash_nonnegativity :
    (∀ ts : List TradeReq, (∀ t ∈ ts, 0 < t.price ∧ 0 < t.qty) →
      0 ≤ (runTrades initialState ts).cash) ∧
    (∀ st symbol qty sl rs price st2 r,
      executeSimTrade st symbol qty .buy .agent sl rs price = (st2, .ok r) →
      price * (qty : ℚ) ≤ st.agent_portfolio.cash ∧
        st2.agent_portfolio.cash = st.agent_portfolio.cash - price * (qty : ℚ) ∧
        0 ≤ st2.agent_portfolio.cash) ∧
    (∀ st symbol qty source sl rs price st2 r,
      executeSimTrade st symbol qty .buy source sl rs price = (st2, .ok r) →
      price * (qty : ℚ) ≤ st.cash) := by
  refine ⟨?_, ?_, ?_⟩
  · have step : ∀ (ts : List TradeReq) (st : SimState),
        (∀ t ∈ ts, 0 < t.price ∧ 0 < t.qty) → 0 ≤ st.cash →
        0 ≤ (runTrades st ts).cash := by
      intro ts
      induction ts with
      | nil => intro st _ h0; exact h0
      | cons t rest ih =>
        intro st hall h0
        have ht := hall t (List.mem_cons_self t rest)
        have hrest : ∀ u ∈ rest, 0 < u.price ∧ 0 < u.qty := fun u hu =>
          hall u (List.mem_cons_of_mem t hu)
        exact ih _ hrest
          (executeSimTrade_cash_nonneg st t.symbol t.qty t.side t.source
            t.stop_loss t.risk_score t.price ht.1 ht.2 h0)
    intro ts hall
    refine step ts initialState hall ?_
    norm_num [initialState]
  · intro st symbol qty sl rs price st2 r h
    obtain ⟨-, hag, -, hst2⟩ := buy_agent_ok_extract st symbol qty sl rs price st2 r h
    have hcash : st2.agent_portfolio.cash =
        st.agent_portfolio.cash - price * (qty : ℚ) := by
      rw [hst2, finalizeEquity_agent_cash, agentBuy_agent_cash, houseBuy_agent]
    exact ⟨hag, hcash, by rw [hcash]; linarith⟩
  · intro st symbol qty source sl rs price st2 r h
    cases source
    · exact (buy_manual_ok_extract st symbol qty sl rs price st2 r h).2.1
    · exact (buy_agent_ok_extract st symbol qty sl rs price st2 r h).2.2.1

/-- C2 witness: a concrete two-trade run from the initial state keeps house
cash nonnegative, and a concrete accepted agent buy debits agent cash by its
cost without going negative. -/
theorem c2_witness :
    0 ≤ (runTrades initialState
      [{ symbol := "AAPL", qty := 10, side := .buy, source := .manual,
         stop_loss := 0, risk_score := 0, price := 150 },
       { symbol := "AAPL", qty := 10, side := .sell, source := .manual,
         stop_loss := 0, risk_score := 0, price := 160 }]).cash :=
  c2_cash_nonnegativity.1 _ (by
    intro t ht
    simp only [List.mem_cons, List.not_mem_nil, or_false] at ht
    rcases ht with h | h <;> rw [h] <;> norm_num)

/-- C3: the equity identity — stored equity equals cash plus the sum of
quantity times current price over held positions, for both the house and the
agent book — holds in the initial state and is preserved by every simulated
Ledger operation that completes: a trade execution (accepted or rejected), an
agent allocation, and a price refresh. -/
theorem c3_equity_identity :
    eqInv initialState ∧
    (∀ st symbol qty side source sl rs price, eqInv st →
      eqInv (executeSimTrade st symbol qty side source sl rs price).1) ∧
    (∀ st amount, eqInv st → eqInv (setAgentAllocation amount st)) ∧
    (∀ st oracle, eqInv st → eqInv (refreshSimPrices oracle st)) := by
  refine ⟨⟨by norm_num [initialState, posValue], by norm_num [initialState, agentPosValue]⟩,
    ?_, ?_, ?_⟩
  · intro st symbol qty side source sl rs price h
    rcases executeSimTrade_shape st symbol qty side source sl rs price
      with ⟨e, heq⟩ | ⟨st2, r, heq⟩
    · rw [heq]
      exact h
    · rw [heq]
      dsimp only
      cases side
      · cases source
        · obtain ⟨-, -, hst2⟩ :=
            buy_manual_ok_extract st symbol qty sl rs price st2 r heq
          rw [hst2]
          exact eqInv_finalizeEquity _
        · obtain ⟨-, -, -, hst2⟩ :=
            buy_agent_ok_extract st symbol qty sl rs price st2 r heq
          rw [hst2]
          exact eqInv_finalizeEquity _
      · have : ∃ st3, st2 = finalizeEquity st3 := by
          by_cases hp : price = 0
          · simp [executeSimTrade, hp] at heq
          · unfold executeSimTrade at heq
            rw [if_neg hp] at heq
            dsimp only at heq
            rcases halk : alookup st.positions symbol with _ | pos
            · rw [halk] at heq
              simp at heq
            · rw [halk] at heq
              dsimp only at heq
              by_cases hq : pos.qty < qty
              · rw [if_pos hq] at heq
                simp at heq
              · rw [if_neg hq] at heq
                cases source <;> dsimp only at heq <;> injection heq with h1 h2
                · exact ⟨_, h1.symm⟩
                · exact ⟨_, h1.symm⟩
        obtain ⟨st3, hst3⟩ := this
        rw [hst3]
        exact eqInv_finalizeEquity _
  · intro st amount h
    exact ⟨h.1, rfl⟩
  · intro st oracle h
    unfold refreshSimPrices
    dsimp only
    split
    · exact ⟨rfl, rfl⟩
    · exact h

/-- C3 witness: the identity holds after a concrete accepted trade, a concrete
allocation and a concrete refresh from the initial state. -/
theorem c3_witness :
    eqInv (executeSimTrade initialState "AAPL" 10 .buy .manual 0 0 150).1 ∧
    eqInv (setAgentAllocation 20000 initialState) ∧
    eqInv (refreshSimPrices (fun _ => 155) initialState) :=
  ⟨c3_equity_identity.2.1 initialState "AAPL" 10 .buy .manual 0 0 150
      c3_equity_identity.1,
    c3_equity_identity.2.2.1 initialState 20000 c3_equity_identity.1,
    c3_equity_identity.2.2.2 initialState (fun _ => 155) c3_equity_identity.1⟩

/-- Any accepted buy debits house cash by the cost and stores the cost-weighted
average position row computed by the code. -/
theorem buy_position_update (st : SimState) (symbol : Ticker) (qty : ℤ)
    (source : Source) (sl rs price : ℚ) (st2 : SimState) (r : TradeResult)
    (h : executeSimTrade st symbol qty .buy source sl rs price = (st2, .ok r)) :
    st2.cash = st.cash - price * (qty : ℚ) ∧
    alookup st2.positions symbol =
      some
        (let old := (alookup st.positions symbol).getD
          { qty := 0, avg_entry_price := 0, current_price := 0,
            unrealized_pl := 0, unrealized_plpc := 0 }
        let new_qty := old.qty + qty
        let new_avg :=
          ((old.qty : ℚ) * old.avg_entry_price + price * (qty : ℚ)) / (new_qty : ℚ)
        { qty := new_qty
          avg_entry_price := new_avg
          current_price := price
          unrealized_pl := (price - new_avg) * (new_qty : ℚ)
          unrealized_plpc := if new_avg = 0 then 0 else price / new_avg - 1 }) := by
  cases source
  · obtain ⟨-, -, hst2⟩ := buy_manual_ok_extract st symbol qty sl rs price st2 r h
    constructor
    · rw [hst2, finalizeEquity_cash, houseBuy_cash]
    · rw [hst2, finalizeEquity_positions]
      exact alookup_aset_self st.positions symbol _
  · obtain ⟨-, -, -, hst2⟩ := buy_agent_ok_extract st symbol qty sl rs price st2 r h
    constructor
    · rw [hst2, finalizeEquity_cash, agentBuy_cash, houseBuy_cash]
    · rw [hst2, finalizeEquity_positions, agentBuy_positions]
      exact alookup_aset_self st.positions symbol _

/-- C4: an accepted buy of quantity q at price p debits house cash by exactly
p times q and sets the position's average entry price to
(oldQty times oldAvg plus p times q) divided by (oldQty plus q); in
particular, buying q1 at p1 and then q2 at p2 of the same symbol starting from
no position yields average entry price (q1 p1 + q2 p2) / (q1 + q2). -/
theorem c4_average_cost :
    (∀ st symbol qty source sl rs price st2 r,
      executeSimTrade st symbol qty .buy source sl rs price = (st2, .ok r) →
      0 < qty →
      (let old := (alookup st.positions symbol).getD
        { qty := 0, avg_entry_price := 0, current_price := 0,
          unrealized_pl := 0, unrealized_plpc := 0 }
      st2.cash = st.cash - price * (qty : ℚ) ∧
      ∃ pos2, alookup st2.positions symbol = some pos2 ∧
        pos2.qty = old.qty + qty ∧
        pos2.avg_entry_price =
          ((old.qty : ℚ) * old.avg_entry_price + price * (qty : ℚ)) /
            ((old.qty : ℚ) + (qty : ℚ)))) ∧
    (∀ st symbol q1 q2 src1 src2 sl1 sl2 rs1 rs2 p1 p2 st1 r1 st2 r2,
      alookup st.positions symbol = none →
      executeSimTrade st symbol q1 .buy src1 sl1 rs1 p1 = (st1, .ok r1) →
      executeSimTrade st1 symbol q2 .buy src2 sl2 rs2 p2 = (st2, .ok r2) →
      0 < q1 → 0 < q2 →
      ∃ pos2, alookup st2.positions symbol = some pos2 ∧
        pos2.avg_entry_price =
          ((q1 : ℚ) * p1 + (q2 : ℚ) * p2) / ((q1 : ℚ) + (q2 : ℚ))) := by
  constructor
  · intro st symbol qty source sl rs price st2 r h hq
    obtain ⟨hcash, hlk⟩ := buy_position_update st symbol qty source sl rs price st2 r h
    refine ⟨hcash, _, hlk, ?_, ?_⟩
    · rfl
    · dsimp only
      push_cast
      rfl
  · intro st symbol q1 q2 src1 src2 sl1 sl2 rs1 rs2 p1 p2 st1 r1 st2 r2 hnone h1 h2
      hq1 hq2
    obtain ⟨-, hlk1⟩ := buy_position_update st symbol q1 src1 sl1 rs1 p1 st1 r1 h1
    obtain ⟨-, hlk2⟩ := buy_position_update st1 symbol q2 src2 sl2 rs2 p2 st2 r2 h2
    rw [hnone] at hlk1
    simp only [Option.getD_none] at hlk1
    rw [hlk1] at hlk2
    simp only [Option.getD_some] at hlk2
    refine ⟨_, hlk2, ?_⟩
    have hq1' : ((q1 : ℤ) : ℚ) ≠ 0 := by
      exact_mod_cast hq1.ne'
    have hsum : ((q1 : ℚ) + (q2 : ℚ)) ≠ 0 := by
      have h1' : (0 : ℚ) < (q1 : ℚ) := by exact_mod_cast hq1
      have h2' : (0 : ℚ) < (q2 : ℚ) := by exact_mod_cast hq2
      positivity
    dsimp only
    push_cast
    rw [zero_add, zero_mul, zero_add, mul_div_assoc, div_self hq1', mul_one,
      mul_comm p2 (q2 : ℚ)]

/-- C4 witness: buying 10 units at price 150 from the initial (empty) book
debits cash by 1500 and stores the cost-weighted average entry price. -/
theorem c4_witness :
    (let old := (alookup initialState.positions "AAPL").getD
      { qty := 0, avg_entry_price := 0, current_price := 0,
        unrealized_pl := 0, unrealized_plpc := 0 }
    (executeSimTrade initialState "AAPL" 10 .buy .manual 0 0 150).1.cash =
        initialState.cash - 150 * ((10 : ℤ) : ℚ) ∧
      ∃ pos2, alookup (executeSimTrade initialState "AAPL" 10 .buy .manual 0 0
          150).1.positions "AAPL" = some pos2 ∧
        pos2.qty = old.qty + 10 ∧
        pos2.avg_entry_price =
          ((old.qty : ℚ) * old.avg_entry_price + 150 * ((10 : ℤ) : ℚ)) /
            ((old.qty : ℚ) + ((10 : ℤ) : ℚ))) := by
  have h : executeSimTrade initialState "AAPL" 10 .buy .manual 0 0 150 =
      ((executeSimTrade initialState "AAPL" 10 .buy .manual 0 0 150).1,
        .ok ⟨"AAPL", .buy, 10, 150, .manual⟩) := by
    norm_num [executeSimTrade, initialState, finalizeEquity, houseBuy, alookup,
      aset, posValue, agentPosValue]
  exact c4_average_cost.1 initialState "AAPL" 10 .manual 0 0 150 _ _ h
    (by norm_num)

/-- C5: an accepted sell of quantity q at price p against a house row holding
quantity h credits house cash by exactly p times q; when h equals q the row is
deleted from the mapping, and when q is strictly below h the row is retained
with quantity h minus q, current price p and the P&L fields recomputed at p. -/
theorem c5_sell_liquidation (st : SimState) (symbol : Ticker) (qty : ℤ)
    (source : Source) (sl rs price : ℚ) (st2 : SimState) (r : TradeResult)
    (pos : Position) (halk : alookup st.positions symbol = some pos)
    (h : executeSimTrade st symbol qty .sell source sl rs price = (st2, .ok r)) :
    st2.cash = st.cash + price * (qty : ℚ) ∧ qty ≤ pos.qty ∧
    (pos.qty = qty → alookup st2.positions symbol = none) ∧
    (qty < pos.qty →
      alookup st2.positions symbol = some
        { pos with
          qty := pos.qty - qty
          current_price := price
          unrealized_pl := (price - pos.avg_entry_price) * ((pos.qty - qty : ℤ) : ℚ)
          unrealized_plpc := price / pos.avg_entry_price - 1 }) := by
  obtain ⟨-, pos2, halk2, hqle, hcash, hpositions⟩ :=
    sell_ok_extract st symbol qty source sl rs price st2 r h
  rw [halk] at halk2
  obtain rfl : pos2 = pos := (Option.some.inj halk2).symm
  refine ⟨hcash, not_lt.mp hqle, ?_, ?_⟩
  · intro heq
    rw [hpositions]
    unfold houseSell
    dsimp only
    rw [if_pos (by rw [heq, sub_self])]
    exact alookup_aerase_self st.positions symbol
  · intro hlt
    rw [hpositions]
    unfold houseSell
    dsimp only
    rw [if_neg (by exact sub_ne_zero_of_ne (ne_of_gt hlt))]
    exact alookup_aset_self st.positions symbol _

/-- C5 witness: selling the full 10-unit holding removes the row and credits
the proceeds; the concrete post-buy state is evaluated first. -/
theorem c5_witness :
    (executeSimTrade (executeSimTrade initialState "AAPL" 10 .buy .manual 0 0
        150).1 "AAPL" 10 .sell .manual 0 0 160).1.cash =
      (executeSimTrade initialState "AAPL" 10 .buy .manual 0 0 150).1.cash +
        160 * ((10 : ℤ) : ℚ) ∧
    (10 : ℤ) ≤ (10 : ℤ) ∧
    ((10 : ℤ) = 10 →
      alookup (executeSimTrade (executeSimTrade initialState "AAPL" 10 .buy
        .manual 0 0 150).1 "AAPL" 10 .sell .manual 0 0 160).1.positions "AAPL" =
        none) := by
  have hbuy : (executeSimTrade initialState "AAPL" 10 .buy .manual 0 0 150).1 =
      { equity := 100000, buying_power := 98500, cash := 98500,
        positions := [("AAPL",
          { qty := 10, avg_entry_price := 150, current_price := 150,
            unrealized_pl := 0, unrealized_plpc := 0 })],
        agent_portfolio :=
          { allocated := 0, cash := 0, equity := 0, positions := [] } } := by
    norm_num [executeSimTrade, initialState, finalizeEquity, houseBuy, alookup,
      aset, posValue, agentPosValue]
  have halk : alookup (executeSimTrade initialState "AAPL" 10 .buy .manual 0 0
      150).1.positions "AAPL" = some
      { qty := 10, avg_entry_price := 150, current_price := 150,
        unrealized_pl := 0, unrealized_plpc := 0 } := by
    rw [hbuy]
    norm_num [alookup]
  have h : executeSimTrade (executeSimTrade initialState "AAPL" 10 .buy .manual
      0 0 150).1 "AAPL" 10 .sell .manual 0 0 160 =
      ((executeSimTrade (executeSimTrade initialState "AAPL" 10 .buy .manual 0 0
        150).1 "AAPL" 10 .sell .manual 0 0 160).1,
        .ok ⟨"AAPL", .sell, 10, 160, .manual⟩) := by
    rw [hbuy]
    norm_num [executeSimTrade, finalizeEquity, houseSell, alookup, aset, aerase,
      posValue, agentPosValue]
  obtain ⟨hcash, hle, hdel, -⟩ :=
    c5_sell_liquidation _ "AAPL" 10 .manual 0 0 160 _ _ _ halk h
  exact ⟨hcash, hle, fun _ => hdel rfl⟩

/-- C6: when the agent book holds a positive quantity of the ticker and the
stop-loss check's account read succeeds, the active stop-loss is the maximum
of the fresh suggestion and the stored stop-loss when both are positive, the
positive one when exactly one is positive, and zero (no active stop) when
neither is — both values being nonnegative per the signal-source contract —
and whenever the active stop-loss is positive and the current price is at or
below it, the cycle submits a sell of the full held quantity with agent
source, regardless of the computed signal. -/
theorem c6_stop_loss_override (inp : BrainInput) (pos : AgentPosMeta)
    (hread : inp.slCheckReadFails = false)
    (hpos : inp.agent_pos = some pos)
    (hqty : 0 < pos.qty)
    (hfresh : 0 ≤ inp.stop_loss) (hstored : 0 ≤ pos.stop_loss) :
    (0 < inp.stop_loss → 0 < pos.stop_loss →
      activeStopLoss inp.stop_loss pos.stop_loss = max inp.stop_loss pos.stop_loss) ∧
    (0 < inp.stop_loss → ¬0 < pos.stop_loss →
      activeStopLoss inp.stop_loss pos.stop_loss = inp.stop_loss) ∧
    (¬0 < inp.stop_loss → 0 < pos.stop_loss →
      activeStopLoss inp.stop_loss pos.stop_loss = pos.stop_loss) ∧
    (¬0 < inp.stop_loss → ¬0 < pos.stop_loss →
      activeStopLoss inp.stop_loss pos.stop_loss = 0) ∧
    (0 < activeStopLoss inp.stop_loss pos.stop_loss →
      inp.price ≤ activeStopLoss inp.stop_loss pos.stop_loss →
      runOnceDecision inp = .panicSell pos.qty) := by
  refine ⟨?_, ?_, ?_, ?_, ?_⟩
  · intro h1 h2
    rw [activeStopLoss, if_pos ⟨h1, h2⟩]
  · intro h1 h2
    rw [activeStopLoss, if_neg (by tauto), if_pos h1.ne']
  · intro h1 h2
    have hz : inp.stop_loss = 0 := le_antisymm (not_lt.mp h1) hfresh
    rw [activeStopLoss, if_neg (by tauto), hz, if_neg (by norm_num)]
  · intro h1 h2
    have hz : inp.stop_loss = 0 := le_antisymm (not_lt.mp h1) hfresh
    have hz2 : pos.stop_loss = 0 := le_antisymm (not_lt.mp h2) hstored
    rw [activeStopLoss, if_neg (by tauto), hz, hz2, if_neg (by norm_num)]
  · intro h1 h2
    have hpc : panicCheck inp = some (.panicSell pos.qty) := by
      rw [panicCheck, hread, hpos]
      dsimp only
      rw [if_neg (by norm_num), if_pos hqty, if_pos ⟨h1, h2⟩]
    rw [runOnceDecision, hpc]

/-- C6 witness: with stored stop-loss 50, fresh suggestion 45 and price 48,
the active stop-loss is 50 and the cycle panic-sells the whole 5-unit
position. -/
theorem c6_witness :
    activeStopLoss 45 50 = max 45 50 ∧
    runOnceDecision
      { price := 48, signal := .BUY, risk_score := 5, stop_loss := 45,
        autonomous_enabled := none, agent_cash := 1000,
        agent_pos := some { qty := 5, stop_loss := 50 },
        slCheckReadFails := false, qtyCalcFails := false } = .panicSell 5 := by
  have h := c6_stop_loss_override
    { price := 48, signal := .BUY, risk_score := 5, stop_loss := 45,
      autonomous_enabled := none, agent_cash := 1000,
      agent_pos := some { qty := 5, stop_loss := 50 },
      slCheckReadFails := false, qtyCalcFails := false }
    { qty := 5, stop_loss := 50 } rfl rfl (by norm_num) (by norm_num) (by norm_num)
  refine ⟨h.1 (by norm_num) (by norm_num), h.2.2.2.2 ?_ ?_⟩
  · rw [h.1 (by norm_num) (by norm_num)]
    norm_num
  · rw [h.1 (by norm_num) (by norm_num)]
    norm_num

/-- C7: a BUY sizing with positive agent cash and price submits a quantity of
floor of (cash times 0.20 times the risk multiplier, divided by price); a
computed quantity of 0 is forced to 1 exactly when cash covers one unit, and
otherwise no trade is submitted; the risk multiplier is
max(0.1, (11 - riskScore) / 10), giving 0.1 at risk 10, 1.0 at risk 1 and 0.6
at risk 5. -/
theorem c7_buy_sizing (inp : BrainInput)
    (hpanic : panicCheck inp = none)
    (hsig : inp.signal = .BUY)
    (hgate : inp.autonomous_enabled ≠ some false)
    (hfail : inp.qtyCalcFails = false)
    (hcash : 0 < inp.agent_cash) (hprice : 0 < inp.price) :
    (let mult := max (1/10 : ℚ) ((11 - inp.risk_score) / 10)
    let q0 : ℤ := ⌊(inp.agent_cash * (20/100) * mult) / inp.price⌋
    runOnceDecision inp =
      (if 1 ≤ q0 then .trade .buy q0 inp.stop_loss inp.risk_score
      else if inp.price ≤ inp.agent_cash then
        .trade .buy 1 inp.stop_loss inp.risk_score
      else .noAction)) ∧
    (inp.risk_score = 10 → max (1/10 : ℚ) ((11 - inp.risk_score) / 10) = 1/10) ∧
    (inp.risk_score = 1 → max (1/10 : ℚ) ((11 - inp.risk_score) / 10) = 1) ∧
    (inp.risk_score = 5 → max (1/10 : ℚ) ((11 - inp.risk_score) / 10) = 3/5) := by
  refine ⟨?_, ?_, ?_, ?_⟩
  · have hmultpos : 0 < max (1/10 : ℚ) ((11 - inp.risk_score) / 10) :=
      lt_max_of_lt_left (by norm_num)
    have halloc : 0 ≤ (inp.agent_cash * (20/100) *
        max (1/10 : ℚ) ((11 - inp.risk_score) / 10)) / inp.price := by
      positivity
    rw [runOnceDecision, hpanic]
    dsimp only
    rw [hsig]
    have hg : inp.autonomous_enabled.getD true = true := by
      rcases hab : inp.autonomous_enabled with _ | b
      · rfl
      · cases b
        · exact absurd hab hgate
        · rfl
    rw [hg, if_neg (by norm_num)]
    rw [sizeAndTrade, hfail, hsig]
    dsimp only
    rw [if_neg (by norm_num), if_pos hprice]
    rw [pyInt, if_pos halloc]
    split_ifs <;> first | rfl | omega | tauto
  · intro h
    rw [h]
    norm_num
  · intro h
    rw [h]
    norm_num
  · intro h
    rw [h]
    norm_num

/-- C7 witness: cash 20000, risk 10, price 100 gives multiplier 0.1,
allocation 400 and a submitted buy of 4 units. -/
theorem c7_witness :
    runOnceDecision
      { price := 100, signal := .BUY, risk_score := 10, stop_loss := 0,
        autonomous_enabled := none, agent_cash := 20000, agent_pos := none,
        slCheckReadFails := false, qtyCalcFails := false } =
      (if 1 ≤ (⌊((20000 : ℚ) * (20/100) * max (1/10 : ℚ) ((11 - 10) / 10)) /
          100⌋ : ℤ) then
        .trade .buy (⌊((20000 : ℚ) * (20/100) * max (1/10 : ℚ) ((11 - 10) / 10)) /
          100⌋ : ℤ) 0 10
      else if (100 : ℚ) ≤ 20000 then .trade .buy 1 0 10
      else .noAction) ∧
    max (1/10 : ℚ) (((11 : ℚ) - 10) / 10) = 1/10 := by
  have h := c7_buy_sizing
    { price := 100, signal := .BUY, risk_score := 10, stop_loss := 0,
      autonomous_enabled := none, agent_cash := 20000, agent_pos := none,
      slCheckReadFails := false, qtyCalcFails := false }
    (by rw [panicCheck]; norm_num) rfl (by simp) rfl (by norm_num) (by norm_num)
  exact ⟨h.1, h.2.1 rfl⟩

/-- C9: if an exception is raised while the quantity for a BUY or SELL signal
is being computed (for example the account read fails), the engine catches
it, sets the quantity to 1 and still submits the trade with agent source
rather than ending the cycle without a trade. -/
theorem c9_quantity_exception_defaults_to_one (inp : BrainInput)
    (hpanic : panicCheck inp = none)
    (hsig : inp.signal ≠ .HOLD)
    (hgate : inp.autonomous_enabled ≠ some false)
    (hfail : inp.qtyCalcFails = true) :
    runOnceDecision inp = .trade (sideOf inp.signal) 1 inp.stop_loss inp.risk_score := by
  have hg : inp.autonomous_enabled.getD true = true := by
    rcases hab : inp.autonomous_enabled with _ | b
    · rfl
    · cases b
      · exact absurd hab hgate
      · rfl
  rw [runOnceDecision, hpanic]
  dsimp only
  rcases hs : inp.signal with _ | _ | _
  · rw [hg, if_neg (by norm_num), sizeAndTrade, hfail, hs]
    dsimp only
    rw [if_pos rfl]
  · rw [hg, if_neg (by norm_num), sizeAndTrade, hfail, hs]
    dsimp only
    rw [if_pos rfl]
  · exact absurd hs hsig

/-- C9 witness: with the account read failing during sizing, a SELL signal is
still submitted with quantity 1. -/
theorem c9_witness :
    runOnceDecision
      { price := 100, signal := .SELL, risk_score := 5, stop_loss := 20,
        autonomous_enabled := none, agent_cash := 0, agent_pos := none,
        slCheckReadFails := false, qtyCalcFails := true } =
      .trade (sideOf .SELL) 1 20 5 :=
  c9_quantity_exception_defaults_to_one
    { price := 100, signal := .SELL, risk_score := 5, stop_loss := 20,
      autonomous_enabled := none, agent_cash := 0, agent_pos := none,
      slCheckReadFails := false, qtyCalcFails := true }
    (by rw [panicCheck]; norm_num) (by simp) (by simp) rfl

/-- With no panic sell and a non-HOLD signal, the cycle reduces to the
configuration gate in front of the sizing step. -/
theorem runOnceDecision_gate (inp : BrainInput)
    (hpanic : panicCheck inp = none) (hsig : inp.signal ≠ .HOLD) :
    runOnceDecision inp =
      (if inp.autonomous_enabled = some false then .noAction
      else sizeAndTrade inp) := by
  rw [runOnceDecision, hpanic]
  dsimp only
  rcases hs : inp.signal with _ | _ | _
  · rcases hab : inp.autonomous_enabled with _ | b
    · simp
    · cases b <;> simp
  · rcases hab : inp.autonomous_enabled with _ | b
    · simp
    · cases b <;> simp
  · exact absurd hs hsig

/-- C10: the configuration gate blocks an automated BUY or SELL only when the
autonomous-enabled flag is present and explicitly false; an absent flag
behaves exactly like an explicit true and the cycle proceeds to sizing and
submission. -/
theorem c10_autonomous_default_enabled (inp : BrainInput)
    (hpanic : panicCheck inp = none)
    (hsig : inp.signal ≠ .HOLD) :
    (inp.autonomous_enabled = some false → runOnceDecision inp = .noAction) ∧
    (inp.autonomous_enabled ≠ some false → runOnceDecision inp = sizeAndTrade inp) ∧
    (inp.autonomous_enabled = none →
      runOnceDecision inp =
        runOnceDecision { inp with autonomous_enabled := some true }) := by
  refine ⟨?_, ?_, ?_⟩
  · intro h
    rw [runOnceDecision_gate inp hpanic hsig, if_pos h]
  · intro h
    rw [runOnceDecision_gate inp hpanic hsig, if_neg h]
  · intro h
    have hpanic2 : panicCheck { inp with autonomous_enabled := some true } =
        none := hpanic
    have hsig2 :
        ({ inp with autonomous_enabled := some true } : BrainInput).signal ≠
          .HOLD := hsig
    rw [runOnceDecision_gate inp hpanic hsig, if_neg (by rw [h]; simp),
      runOnceDecision_gate _ hpanic2 hsig2, if_neg (by simp)]
    rfl

/-- C10 witness: with the flag absent and a failing sizing read, the engine
still submits the automated trade, identically to an explicit true flag. -/
theorem c10_witness :
    runOnceDecision
      { price := 100, signal := .BUY, risk_score := 5, stop_loss := 0,
        autonomous_enabled := none, agent_cash := 1000, agent_pos := none,
        slCheckReadFails := false, qtyCalcFails := true } =
      runOnceDecision
        { price := 100, signal := .BUY, risk_score := 5, stop_loss := 0,
          autonomous_enabled := some true, agent_cash := 1000, agent_pos := none,
          slCheckReadFails := false, qtyCalcFails := true } :=
  (c10_autonomous_default_enabled
    { price := 100, signal := .BUY, risk_score := 5, stop_loss := 0,
      autonomous_enabled := none, agent_cash := 1000, agent_pos := none,
      slCheckReadFails := false, qtyCalcFails := true }
    (by rw [panicCheck]; norm_num) (by simp)).2.2 rfl

/-- C8 counterexample: 30 seconds after a refresh — inside the 60-second
window — a call to `get_positions` (a public Ledger operation that causes a
price refresh) still runs the refresh body: it bypasses the caller-side gate
entirely, so the claim that every refresh-causing public operation is
throttled fails. -/
theorem c8_counterexample :
    (getPositionsRefreshTrigger (some 0) 30).2 = true ∧ (30 : ℚ) - 0 < 60 :=
  ⟨rfl, by norm_num⟩

/-- C8 as amended: the gate used by `get_account_info` starts a refresh only
on the first trigger or when at least 60 seconds have elapsed since the last
one, re-stamping itself when it fires and changing nothing on a no-op within
the window; `get_positions`, by contrast, runs the refresh body on every call
without consulting the gate. -/
theorem c8_throttle_amended (t now : ℚ) :
    maybeRefreshPrices none now = (some now, true) ∧
    (60 ≤ now - t → maybeRefreshPrices (some t) now = (some now, true)) ∧
    (now - t < 60 → maybeRefreshPrices (some t) now = (some t, false)) ∧
    getPositionsRefreshTrigger (some t) now = (some t, true) := by
  refine ⟨rfl, ?_, ?_, rfl⟩
  · intro h
    rw [maybeRefreshPrices, if_pos h]
  · intro h
    rw [maybeRefreshPrices, if_neg (not_le.mpr h)]

/-- C8 witness: a trigger through the gate 30 seconds after the last refresh
is a no-op that leaves the stamp unchanged, while one 90 seconds after fires
and re-stamps. -/
theorem c8_witness :
    maybeRefreshPrices (some 0) 30 = (some 0, false) ∧
    maybeRefreshPrices (some 0) 90 = (some 90, true) :=
  ⟨(c8_throttle_amended 0 30).2.2.1 (by norm_num),
    (c8_throttle_amended 0 90).2.1 (by norm_num)⟩
